import Mathlib

/-!
Verification development for the `complot` plotting library (Rust).

The development shallowly embeds the numeric and geometric core of the
crate: the value-normalization logic shared by `src/lib.rs::heatmap` and
`src/tri.rs::TriPlot::map`, the per-triangle cell-value reduction, the
wireframe and heatmap renderers of `src/tri.rs`, the colorbar synthesis of
`src/lib.rs`/`src/tri.rs`/`src/heatmap.rs`, and the panic/`Result`
behaviour of the `From`/`FromIterator` conversion entry points.

Modelling conventions:
* `f64` is modelled by `F`: NaN, the two infinities, and finite values as
  exact rationals.  IEEE-754 rounding and signed zero are not modelled;
  finite arithmetic is exact.  The NaN-ignoring semantics of Rust's
  `f64::min`/`f64::max` (`fmin`/`fmax`) and the NaN/∞ propagation rules of
  `+`, `-`, `*`, `/` are modelled faithfully (division treats a zero
  divisor as `+0`).
* The `colorous` gradients are external data; a gradient is abstracted as
  a function `g : ℚ → Color` evaluated on the clamped unit interval, with
  `eval_rational i n = eval_continuous (i / (n - 1))` as in `colorous`.
* The `plotters` drawing backend is an external collaborator: drawing is
  modelled as pure accumulation of primitives, and where the source
  routes backend fallibility through `Result` (the `?` sites), the
  aggregate backend outcome is passed in as an explicit
  `Except String Unit` parameter.
* The Delaunay triangulation itself is built by the external `spade`
  crate, whose `insert` is infallible; the enumeration `self.triangles()`
  is passed to the embedded renderers as an explicit list of vertex-index
  triples.
-/

/-- Model of an `f64` value: NaN, `+∞`, `-∞`, or a finite value carried as
an exact rational (IEEE rounding and signed zero are not modelled). -/
inductive F where
  | nan : F
  | inf : F
  | ninf : F
  | fin : ℚ → F
deriving DecidableEq

/-- Rust `f64` negation. -/
def negF : F → F
  | .nan => .nan
  | .inf => .ninf
  | .ninf => .inf
  | .fin a => .fin (-a)

/-- Rust `f64` addition: NaN propagates, `∞ + (-∞) = NaN`. -/
def addF : F → F → F
  | .nan, _ => .nan
  | _, .nan => .nan
  | .inf, .ninf => .nan
  | .ninf, .inf => .nan
  | .inf, _ => .inf
  | _, .inf => .inf
  | .ninf, _ => .ninf
  | _, .ninf => .ninf
  | .fin a, .fin b => .fin (a + b)

/-- Rust `f64` subtraction, as addition of the negation. -/
def subF (a b : F) : F := addF a (negF b)

/-- Rust `f64` multiplication: NaN propagates, `∞ * 0 = NaN`. -/
def mulF : F → F → F
  | .nan, _ => .nan
  | _, .nan => .nan
  | .inf, .inf => .inf
  | .inf, .ninf => .ninf
  | .ninf, .inf => .ninf
  | .ninf, .ninf => .inf
  | .inf, .fin b => if b = 0 then .nan else if 0 < b then .inf else .ninf
  | .fin a, .inf => if a = 0 then .nan else if 0 < a then .inf else .ninf
  | .ninf, .fin b => if b = 0 then .nan else if 0 < b then .ninf else .inf
  | .fin a, .ninf => if a = 0 then .nan else if 0 < a then .ninf else .inf
  | .fin a, .fin b => .fin (a * b)

/-- Rust `f64` division: NaN propagates, `∞/∞ = NaN`, `0/0 = NaN`,
`x/0 = ±∞` for finite nonzero `x` (the zero divisor is treated as `+0`,
signed zero being outside the model), `x/∞ = 0`. -/
def divF : F → F → F
  | .nan, _ => .nan
  | _, .nan => .nan
  | .inf, .inf => .nan
  | .inf, .ninf => .nan
  | .ninf, .inf => .nan
  | .ninf, .ninf => .nan
  | .inf, .fin b => if 0 ≤ b then .inf else .ninf
  | .ninf, .fin b => if 0 ≤ b then .ninf else .inf
  | .fin _, .inf => .fin 0
  | .fin _, .ninf => .fin 0
  | .fin a, .fin b =>
      if b = 0 then (if a = 0 then .nan else if 0 < a then .inf else .ninf)
      else .fin (a / b)

instance : Neg F := ⟨negF⟩

instance : Add F := ⟨addF⟩

instance : Sub F := ⟨subF⟩

instance : Mul F := ⟨mulF⟩

instance : Div F := ⟨divF⟩

/-- Total order test on non-NaN values; any comparison with NaN is
`false`, mirroring Rust's `PartialOrd` on `f64`. -/
def leB : F → F → Bool
  | .nan, _ => false
  | _, .nan => false
  | .ninf, _ => true
  | _, .inf => true
  | .inf, _ => false
  | _, .ninf => false
  | .fin a, .fin b => decide (a ≤ b)

/-- Rust's `>` on `f64`: `false` whenever either operand is NaN. -/
def gtB : F → F → Bool
  | .nan, _ => false
  | _, .nan => false
  | .inf, .inf => false
  | .inf, _ => true
  | _, .inf => false
  | .ninf, _ => false
  | .fin _, .ninf => true
  | .fin a, .fin b => decide (b < a)

/-- `f64::is_nan`. -/
def F.isNan : F → Bool
  | .nan => true
  | _ => false

/-- Rust `f64::min` (`fmin`): if one operand is NaN the other is
returned. -/
def minF : F → F → F
  | .nan, b => b
  | a, .nan => a
  | .ninf, _ => .ninf
  | _, .ninf => .ninf
  | .inf, b => b
  | a, .inf => a
  | .fin a, .fin b => .fin (min a b)

/-- Rust `f64::max` (`fmax`): if one operand is NaN the other is
returned. -/
def maxF : F → F → F
  | .nan, b => b
  | a, .nan => a
  | .inf, _ => .inf
  | _, .inf => .inf
  | .ninf, b => b
  | a, .ninf => a
  | .fin a, .fin b => .fin (max a b)

/-! Constructor-case evaluation lemmas for the `F` operations, used to
compute with concrete values (kernel reduction of `ℚ` arithmetic is not
available, so evaluation goes through `simp`/`norm_num`). -/

@[simp] lemma negF_nan : negF F.nan = F.nan := rfl

@[simp] lemma negF_inf : negF F.inf = F.ninf := rfl

@[simp] lemma negF_ninf : negF F.ninf = F.inf := rfl

@[simp] lemma negF_fin (a : ℚ) : negF (F.fin a) = F.fin (-a) := rfl

@[simp] lemma addF_nan_left (b : F) : addF F.nan b = F.nan := by cases b <;> rfl

@[simp] lemma addF_nan_right (a : F) : addF a F.nan = F.nan := by cases a <;> rfl

@[simp] lemma addF_fin_fin (a b : ℚ) : addF (F.fin a) (F.fin b) = F.fin (a + b) := rfl

@[simp] lemma addF_inf_fin (b : ℚ) : addF F.inf (F.fin b) = F.inf := rfl

@[simp] lemma addF_fin_inf (a : ℚ) : addF (F.fin a) F.inf = F.inf := rfl

@[simp] lemma addF_ninf_fin (b : ℚ) : addF F.ninf (F.fin b) = F.ninf := rfl

@[simp] lemma addF_fin_ninf (a : ℚ) : addF (F.fin a) F.ninf = F.ninf := rfl

@[simp] lemma addF_inf_inf : addF F.inf F.inf = F.inf := rfl

@[simp] lemma addF_inf_ninf : addF F.inf F.ninf = F.nan := rfl

@[simp] lemma addF_ninf_inf : addF F.ninf F.inf = F.nan := rfl

@[simp] lemma addF_ninf_ninf : addF F.ninf F.ninf = F.ninf := rfl

@[simp] lemma sub_def (a b : F) : a - b = addF a (negF b) := rfl

@[simp] lemma add_def (a b : F) : a + b = addF a b := rfl

@[simp] lemma neg_def (a : F) : -a = negF a := rfl

@[simp] lemma mul_def (a b : F) : a * b = mulF a b := rfl

@[simp] lemma div_def (a b : F) : a / b = divF a b := rfl

@[simp] lemma mulF_fin_fin (a b : ℚ) : mulF (F.fin a) (F.fin b) = F.fin (a * b) := rfl

@[simp] lemma mulF_nan_left (b : F) : mulF F.nan b = F.nan := by cases b <;> rfl

@[simp] lemma mulF_nan_right (a : F) : mulF a F.nan = F.nan := by cases a <;> rfl

@[simp] lemma divF_nan_left (b : F) : divF F.nan b = F.nan := by cases b <;> rfl

@[simp] lemma divF_nan_right (a : F) : divF a F.nan = F.nan := by cases a <;> rfl

@[simp] lemma divF_fin_fin (a b : ℚ) :
    divF (F.fin a) (F.fin b) =
      if b = 0 then (if a = 0 then F.nan else if 0 < a then F.inf else F.ninf)
      else F.fin (a / b) := rfl

@[simp] lemma divF_inf_fin (b : ℚ) :
    divF F.inf (F.fin b) = if 0 ≤ b then F.inf else F.ninf := rfl

@[simp] lemma divF_ninf_fin (b : ℚ) :
    divF F.ninf (F.fin b) = if 0 ≤ b then F.ninf else F.inf := rfl

@[simp] lemma divF_fin_inf (a : ℚ) : divF (F.fin a) F.inf = F.fin 0 := rfl

@[simp] lemma divF_fin_ninf (a : ℚ) : divF (F.fin a) F.ninf = F.fin 0 := rfl

@[simp] lemma minF_nan_left (b : F) : minF F.nan b = b := by cases b <;> rfl

@[simp] lemma minF_nan_right (a : F) : minF a F.nan = a := by cases a <;> rfl

@[simp] lemma minF_fin_fin (a b : ℚ) : minF (F.fin a) (F.fin b) = F.fin (min a b) := rfl

@[simp] lemma minF_inf_fin (b : ℚ) : minF F.inf (F.fin b) = F.fin b := rfl

@[simp] lemma minF_fin_inf (a : ℚ) : minF (F.fin a) F.inf = F.fin a := rfl

@[simp] lemma minF_ninf_left (b : F) : minF F.ninf b = F.ninf := by cases b <;> rfl

@[simp] lemma minF_fin_ninf (a : ℚ) : minF (F.fin a) F.ninf = F.ninf := rfl

@[simp] lemma minF_inf_inf : minF F.inf F.inf = F.inf := rfl

@[simp] lemma maxF_nan_left (b : F) : maxF F.nan b = b := by cases b <;> rfl

@[simp] lemma maxF_nan_right (a : F) : maxF a F.nan = a := by cases a <;> rfl

@[simp] lemma maxF_fin_fin (a b : ℚ) : maxF (F.fin a) (F.fin b) = F.fin (max a b) := rfl

@[simp] lemma maxF_ninf_fin (b : ℚ) : maxF F.ninf (F.fin b) = F.fin b := rfl

@[simp] lemma maxF_fin_ninf (a : ℚ) : maxF (F.fin a) F.ninf = F.fin a := rfl

@[simp] lemma maxF_inf_left (b : F) : maxF F.inf b = F.inf := by cases b <;> rfl

@[simp] lemma maxF_fin_inf (a : ℚ) : maxF (F.fin a) F.inf = F.inf := rfl

@[simp] lemma maxF_ninf_ninf : maxF F.ninf F.ninf = F.ninf := rfl

@[simp] lemma leB_fin_fin (a b : ℚ) : leB (F.fin a) (F.fin b) = decide (a ≤ b) := rfl

@[simp] lemma gtB_fin_fin (a b : ℚ) : gtB (F.fin a) (F.fin b) = decide (b < a) := rfl

@[simp] lemma gtB_ninf_inf : gtB F.ninf F.inf = false := rfl

@[simp] lemma isNan_nan : F.nan.isNan = true := rfl

@[simp] lemma isNan_inf : F.inf.isNan = false := rfl

@[simp] lemma isNan_ninf : F.ninf.isNan = false := rfl

@[simp] lemma isNan_fin (a : ℚ) : (F.fin a).isNan = false := rfl

/-- The fold `values.iter().cloned().fold(f64::INFINITY, f64::min)` used
throughout the crate to compute a range minimum. -/
def foldMin (l : List F) : F := l.foldl minF F.inf

/-- The fold `values.iter().cloned().fold(f64::NEG_INFINITY, f64::max)`
used throughout the crate to compute a range maximum. -/
def foldMax (l : List F) : F := l.foldl maxF F.ninf

/-- The value-normalization step shared by `src/lib.rs::heatmap`
(lines 327–348: `cmap_minmax` override or min/max folds, then
`u = (v - cells_min) / (cells_max - cells_min)`) and
`src/tri.rs::TriPlot::map` (lines 138–143, always without explicit
range).  Returns the normalized sequence together with the range used. -/
def normalizeVals (values : List F) (explicitRange : Option (F × F)) :
    List F × (F × F) :=
  let mm := match explicitRange with
    | some r => r
    | none => (foldMin values, foldMax values)
  (values.map (fun v => (v - mm.1) / (mm.2 - mm.1)), mm)

example : normalizeVals [F.fin 1, F.fin 1] none = ([F.nan, F.nan], (F.fin 1, F.fin 1)) := by
  norm_num [normalizeVals, foldMin, foldMax]

example : normalizeVals [F.fin 0, F.fin 2] none = ([F.fin 0, F.fin 1], (F.fin 0, F.fin 2)) := by
  norm_num [normalizeVals, foldMin, foldMax]

/-! Order facts about `leB`, `minF`, `maxF` and the range folds. -/

lemma leB_refl {a : F} (h : a ≠ F.nan) : leB a a = true := by
  cases a <;> simp_all [leB]

lemma leB_trans {a b c : F} (h1 : leB a b = true) (h2 : leB b c = true) :
    leB a c = true := by
  cases a <;> cases b <;> cases c <;> simp_all [leB]
  exact le_trans h1 h2

lemma minF_ne_nan {a : F} (b : F) (ha : a ≠ F.nan) : minF a b ≠ F.nan := by
  cases a <;> cases b <;> simp_all [minF]

lemma maxF_ne_nan {a : F} (b : F) (ha : a ≠ F.nan) : maxF a b ≠ F.nan := by
  cases a <;> cases b <;> simp_all [maxF]

lemma minF_ne_nan' (a : F) {b : F} (hb : b ≠ F.nan) : minF a b ≠ F.nan := by
  cases a <;> cases b <;> simp_all [minF]

lemma maxF_ne_nan' (a : F) {b : F} (hb : b ≠ F.nan) : maxF a b ≠ F.nan := by
  cases a <;> cases b <;> simp_all [maxF]

lemma leB_minF_left {a : F} (b : F) (ha : a ≠ F.nan) : leB (minF a b) a = true := by
  cases a <;> cases b <;> simp_all [minF, leB]

lemma leB_minF_right (a : F) {b : F} (hb : b ≠ F.nan) : leB (minF a b) b = true := by
  cases a <;> cases b <;> simp_all [minF, leB]

lemma leB_maxF_left {a : F} (b : F) (ha : a ≠ F.nan) : leB a (maxF a b) = true := by
  cases a <;> cases b <;> simp_all [maxF, leB]

lemma leB_maxF_right (a : F) {b : F} (hb : b ≠ F.nan) : leB b (maxF a b) = true := by
  cases a <;> cases b <;> simp_all [maxF, leB]

lemma foldl_minF_ne_nan (l : List F) :
    ∀ acc : F, acc ≠ F.nan → l.foldl minF acc ≠ F.nan := by
  induction l with
  | nil => intro acc h; simpa using h
  | cons v vs ih =>
      intro acc h
      exact ih (minF acc v) (minF_ne_nan v h)

lemma foldl_maxF_ne_nan (l : List F) :
    ∀ acc : F, acc ≠ F.nan → l.foldl maxF acc ≠ F.nan := by
  induction l with
  | nil => intro acc h; simpa using h
  | cons v vs ih =>
      intro acc h
      exact ih (maxF acc v) (maxF_ne_nan v h)

lemma foldl_minF_le_acc (l : List F) :
    ∀ acc : F, acc ≠ F.nan → leB (l.foldl minF acc) acc = true := by
  induction l with
  | nil => intro acc h; simpa using leB_refl h
  | cons v vs ih =>
      intro acc h
      exact leB_trans (ih (minF acc v) (minF_ne_nan v h)) (leB_minF_left v h)

lemma foldl_maxF_ge_acc (l : List F) :
    ∀ acc : F, acc ≠ F.nan → leB acc (l.foldl maxF acc) = true := by
  induction l with
  | nil => intro acc h; simpa using leB_refl h
  | cons v vs ih =>
      intro acc h
      exact leB_trans (leB_maxF_left v h) (ih (maxF acc v) (maxF_ne_nan v h))

lemma foldl_minF_le_mem (l : List F) :
    ∀ (acc : F) {u : F}, u ∈ l → u ≠ F.nan → leB (l.foldl minF acc) u = true := by
  induction l with
  | nil => intro acc u hu; cases hu
  | cons v vs ih =>
      intro acc u hu hnan
      rcases List.mem_cons.mp hu with h | h
      · subst h
        exact leB_trans (foldl_minF_le_acc vs (minF acc u) (minF_ne_nan' acc hnan))
          (leB_minF_right acc hnan)
      · exact ih (minF acc v) h hnan

lemma foldl_maxF_ge_mem (l : List F) :
    ∀ (acc : F) {u : F}, u ∈ l → u ≠ F.nan → leB u (l.foldl maxF acc) = true := by
  induction l with
  | nil => intro acc u hu; cases hu
  | cons v vs ih =>
      intro acc u hu hnan
      rcases List.mem_cons.mp hu with h | h
      · subst h
        exact leB_trans (leB_maxF_right acc hnan)
          (foldl_maxF_ge_acc vs (maxF acc u) (maxF_ne_nan' acc hnan))
      · exact ih (maxF acc v) h hnan

lemma minF_nan_right' (a : F) : minF a F.nan = a := by cases a <;> rfl

lemma maxF_nan_right' (a : F) : maxF a F.nan = a := by cases a <;> rfl

/-- NaN entries do not affect the `f64::min` fold. -/
lemma foldl_minF_filter (l : List F) :
    ∀ acc : F, l.foldl minF acc = (l.filter (fun v => !v.isNan)).foldl minF acc := by
  induction l with
  | nil => intro acc; rfl
  | cons v vs ih =>
      intro acc
      cases v with
      | nan => simpa [minF_nan_right'] using ih acc
      | inf => simpa using ih (minF acc F.inf)
      | ninf => simpa using ih (minF acc F.ninf)
      | fin q => simpa using ih (minF acc (F.fin q))

/-- NaN entries do not affect the `f64::max` fold. -/
lemma foldl_maxF_filter (l : List F) :
    ∀ acc : F, l.foldl maxF acc = (l.filter (fun v => !v.isNan)).foldl maxF acc := by
  induction l with
  | nil => intro acc; rfl
  | cons v vs ih =>
      intro acc
      cases v with
      | nan => simpa [maxF_nan_right'] using ih acc
      | inf => simpa using ih (maxF acc F.inf)
      | ninf => simpa using ih (maxF acc F.ninf)
      | fin q => simpa using ih (maxF acc (F.fin q))

/-- Claim C1, counterexample to the stated behaviour: for the constant
sequence `[1.0, 1.0]` (minimum equals maximum, no explicit range), the
normalization of `TriPlot::map`/`heatmap` computes `(1-1)/(1-1) = 0/0 =
NaN` for every entry — not the constant `0.5`, and the output does
contain NaN. -/
theorem normalize_degenerate_not_half :
    (normalizeVals [F.fin 1, F.fin 1] none).1 = [F.nan, F.nan]
      ∧ F.nan ≠ F.fin (1 / 2) :=
  ⟨by norm_num [normalizeVals, foldMin, foldMax], by simp⟩

/-- Claim C1 (amended): for every value sequence whose computed minimum
and maximum coincide at a finite value `c` (and no explicit range given),
the normalization step of `TriPlot::map` (`src/tri.rs` lines 138–143) and
`heatmap` (`src/lib.rs` lines 345–349) maps every entry — finite entries
included — to NaN via `0/0`, rather than to the fixed constant `0.5`; the
normalized output is all NaN (subsequently rendered through the sentinel
branch). -/
theorem normalize_degenerate_all_nan (v : List F) (c : ℚ)
    (hmin : foldMin v = F.fin c) (hmax : foldMax v = F.fin c) :
    (normalizeVals v none).1 = v.map (fun _ => F.nan) := by
  have key : ∀ u ∈ v, (u - F.fin c) / (F.fin c - F.fin c) = F.nan := by
    intro u hu
    cases u with
    | nan => simp
    | inf =>
        have h := foldl_maxF_ge_mem v F.ninf hu (by simp)
        rw [show v.foldl maxF F.ninf = foldMax v from rfl, hmax] at h
        simp [leB] at h
    | ninf =>
        have h := foldl_minF_le_mem v F.inf hu (by simp)
        rw [show v.foldl minF F.inf = foldMin v from rfl, hmin] at h
        simp [leB] at h
    | fin q =>
        have h1 := foldl_minF_le_mem v F.inf hu (by simp)
        rw [show v.foldl minF F.inf = foldMin v from rfl, hmin] at h1
        have h2 := foldl_maxF_ge_mem v F.ninf hu (by simp)
        rw [show v.foldl maxF F.ninf = foldMax v from rfl, hmax] at h2
        simp only [leB, decide_eq_true_eq] at h1 h2
        have hq : q = c := le_antisymm h2 h1
        subst hq
        simp
  unfold normalizeVals
  simp only [hmin, hmax]
  rw [List.map_eq_map_iff]
  intro u hu
  exact key u hu

/-- Witness for `normalize_degenerate_all_nan` at the concrete constant
sequence `[1.0, 1.0]`. -/
theorem normalize_degenerate_all_nan_witness :
    (normalizeVals [F.fin 1, F.fin 1] none).1
      = [F.fin 1, F.fin 1].map (fun _ => F.nan) :=
  normalize_degenerate_all_nan [F.fin 1, F.fin 1] 1
    (by norm_num [foldMin]) (by norm_num [foldMax])

/-- Claim C8, counterexample to the stated behaviour: for `v = [0.0, 2.0]`
the first normalization returns `([0, 1], (0, 2))`; re-normalizing `[0, 1]`
with the returned range `(0, 2)` as the explicit range rescales to
`[0, 1/2]`, which differs from the first result. -/
theorem normalize_idempotent_counterexample :
    normalizeVals (normalizeVals [F.fin 0, F.fin 2] none).1
        (some (normalizeVals [F.fin 0, F.fin 2] none).2)
      ≠ normalizeVals [F.fin 0, F.fin 2] none := by
  norm_num [normalizeVals, foldMin, foldMax]

/-- Claim C8 (amended): the explicit range that makes re-normalization a
no-op is the unit range `(0, 1)`, not the range returned by the first
run: for every value sequence `v`, normalizing the normalized sequence of
`normalize(v, None)` with explicit range `(0, 1)` returns that normalized
sequence unchanged (`(u - 0) / (1 - 0) = u`, NaN and infinities
included). -/
theorem normalize_noop_unit_range (v : List F) :
    (normalizeVals (normalizeVals v none).1 (some (F.fin 0, F.fin 1))).1
      = (normalizeVals v none).1 := by
  have key : ∀ u : F, divF (addF u (F.fin 0)) (F.fin 1) = u := by
    intro u
    cases u <;> norm_num
  generalize (normalizeVals v none).1 = w
  unfold normalizeVals
  simp [key]

/-! Embedding of `src/tri.rs` (wireframe mesh, scalar heatmap, colorbar). -/

/-- RGB triple as produced by `colorous::Color::as_tuple` / consumed by
`plotters::RGBColor` (u8 components; all values in the model stay below
256, so plain `Nat` components are used). -/
abbrev Color := Nat × Nat × Nat

/-- Unit-interval clamping performed by `colorous::Gradient`'s continuous
evaluation; the NaN case is arbitrary (0) and is never reached on the
verified paths, which guard with `is_nan` first. -/
def clampF : F → ℚ
  | .nan => 0
  | .inf => 1
  | .ninf => 0
  | .fin q => max 0 (min 1 q)

/-- `colorous::Gradient::eval_continuous`, the gradient abstracted as a
function `g` on the clamped unit interval. -/
def evalContinuousF (g : ℚ → Color) (u : F) : Color := g (clampF u)

/-- `colorous::Gradient::eval_rational(i, n)`, which `colorous` defines as
`eval_continuous(i as f64 / (n - 1) as f64)`. -/
def evalRationalF (g : ℚ → Color) (k n : Nat) : Color :=
  evalContinuousF g (F.fin (k : ℚ) / F.fin (((n - 1 : Nat)) : ℚ))

/-- A filled polygon handed to the backend (`Polygon::new(v, style)`). -/
structure Polygon where
  verts : List (F × F)
  color : Color
deriving DecidableEq

/-- A stroked polyline handed to the backend (`LineSeries::new(pts, color)`). -/
structure Polyline where
  pts : List (F × F)
  color : Color
deriving DecidableEq

/-- An axis-aligned rectangle handed to the backend
(`Rectangle::new([(x0, y0), (x1, y1)], style)`). -/
structure Rect where
  x0 : F
  y0 : F
  x1 : F
  y1 : F
  color : Color
deriving DecidableEq

/-- Vertex lookup `(x[i.fix()], y[i.fix()])`; out-of-range indices (which
the spade triangulation never produces) default to 0. -/
def pt (x y : List F) (i : Nat) : F × F := (x.getD i (F.fin 0), y.getD i (F.fin 0))

/-- The vertex list
`t.as_triangle().iter().map(|&i| (x[i.fix()], y[i.fix()])).collect()`. -/
def triPoly (x y : List F) (t : Nat × Nat × Nat) : List (F × F) :=
  [pt x y t.1, pt x y t.2.1, pt x y t.2.2]

/-- `v.iter().cycle().take(n)` on a vertex list `v`. -/
def cycleTake (d : F × F) (l : List (F × F)) (n : Nat) : List (F × F) :=
  if l.isEmpty then [] else (List.range n).map (fun k => l.getD (k % l.length) d)

/-- `TriPlot::mesh` (src/tri.rs lines 102–126), wireframe mode: for each
triangle of the spade enumeration `tris`, draw a `LineSeries` over
`v.iter().cycle().take(4)` in the single caller-supplied color. -/
def triMeshPolylines (x y : List F) (color : Color)
    (tris : List (Nat × Nat × Nat)) : List Polyline :=
  tris.map (fun t => ⟨cycleTake (F.fin 0, F.fin 0) (triPoly x y t) 4, color⟩)

/-- The per-triangle reduction
`t.as_triangle().iter().fold(0., |a, &i| a + z[i.fix()] / 3.)` of
`TriPlot::map` (out-of-range vertex indices default to NaN). -/
def cellValueFold (z : List F) (idx : List Nat) : F :=
  idx.foldl (fun a i => a + z.getD i F.nan / F.fin 3) (F.fin 0)

/-- The cell-value list `cells` of `TriPlot::map` (src/tri.rs
lines 134–137). -/
def triMapCells (z : List F) (tris : List (Nat × Nat × Nat)) : List F :=
  tris.map (fun t => cellValueFold z [t.1, t.2.1, t.2.2])

/-- The normalized cell values `unit_cells` of `TriPlot::map`
(lines 138–143). -/
def triMapUnit (z : List F) (tris : List (Nat × Nat × Nat)) : List F :=
  let cells := triMapCells z tris
  let cellsMax := foldMax cells
  let cellsMin := foldMin cells
  cells.map (fun p => (p - cellsMin) / (cellsMax - cellsMin))

/-- The fill style of `TriPlot::map` (lines 156–162): sentinel
`BLACK.filled()` when the normalized cell value is NaN, otherwise the
continuous gradient evaluation (CIVIDIS in the source, abstracted as
`g`). -/
def triFill (g : ℚ → Color) (p : F) : Color :=
  if p.isNan then (0, 0, 0) else evalContinuousF g p

/-- `TriPlot::map` (lines 145–165): one filled polygon per triangle,
colored from its normalized cell value. -/
def triMapPolygons (g : ℚ → Color) (x y z : List F)
    (tris : List (Nat × Nat × Nat)) : List Polygon :=
  List.zipWith (fun v p => ⟨v, triFill g p⟩) (tris.map (triPoly x y)) (triMapUnit z tris)

/-- The colorbar strip of `src/lib.rs::heatmap` (lines 373–378),
`src/heatmap.rs` (lines 110–115) and `src/tri.rs::TriPlot::heatmap`
(lines 213–219, where `size = 800`): `size` rectangles of width
`dx = (max - min) / (size - 1)` with rectangle `k` at
`[(min + k*dx, 0), (min + k*dx + dx, 1)]`, colored by
`eval_rational(k, size)`. -/
def colorbarRects (g : ℚ → Color) (cellsMin cellsMax : F) (size : Nat) :
    List Rect :=
  let dx := (cellsMax - cellsMin) / F.fin (((size - 1 : Nat)) : ℚ)
  (List.range size).map (fun (k : Nat) =>
    let xv := cellsMin + F.fin (k : ℚ) * dx
    ⟨xv, F.fin 0, xv + dx, F.fin 1, evalRationalF g k size⟩)

/-- Failure kinds of `tri::heatmap`: every `?` site in
`TriPlot::heatmap` is a call into the `plotters` backend, so the only
possible failure is a backend error — the crate defines no
degenerate-input (or any other) error type. -/
inductive TriError where
  | backend (msg : String)
deriving DecidableEq

/-- Primitives accumulated by one `tri::heatmap` call. -/
structure TriRenderLog where
  chartRange : F × F
  polygons : List Polygon
  colorbar : List Rect
deriving DecidableEq

/-- `tri::heatmap` (src/tri.rs lines 62–74) together with
`TriPlot::heatmap` (lines 168–222): all points are inserted into the
spade triangulation (`insert` is infallible), `trimap` draws one filled
polygon per enumerated triangle, and the colorbar is built over the
min/max folds of the raw `z` values; the function then returns `Ok(())`.
The spade triangle enumeration is passed as `tris`; the backend is
modelled as pure accumulation, so the backend-error `?` sites cannot
fire. -/
def triHeatmap (g : ℚ → Color) (x y z : List F) (range : F × F)
    (tris : List (Nat × Nat × Nat)) : Except TriError TriRenderLog :=
  let polys := triMapPolygons g x y z tris
  let cellsMin := foldMin z
  let cellsMax := foldMax z
  let bar := colorbarRects g cellsMin cellsMax 800
  .ok ⟨range, polys, bar⟩

/-- Concrete constant gradient used to instantiate witness theorems
(mid-gray, distinct from the sentinel black). -/
def gconst : ℚ → Color := fun _ => (128, 128, 128)

lemma getD_map_of_lt {α β : Type} (f : α → β) :
    ∀ (l : List α) (k : Nat), k < l.length → ∀ (d : β) (e : α),
      (l.map f).getD k d = f (l.getD k e) := by
  intro l
  induction l with
  | nil => intro k hk; cases hk
  | cons v vs ih =>
      intro k hk d e
      cases k with
      | zero => rfl
      | succ k => exact ih k (by simpa using hk) d e

lemma getD_zipWith_of_lt {α β γ : Type} (f : α → β → γ) :
    ∀ (l1 : List α) (l2 : List β) (k : Nat), k < l1.length → k < l2.length →
      ∀ (d : γ) (e1 : α) (e2 : β),
        (List.zipWith f l1 l2).getD k d = f (l1.getD k e1) (l2.getD k e2) := by
  intro l1
  induction l1 with
  | nil => intro l2 k hk; cases hk
  | cons v vs ih =>
      intro l2 k hk1 hk2 d e1 e2
      cases l2 with
      | nil => cases hk2
      | cons w ws =>
          cases k with
          | zero => rfl
          | succ k => exact ih ws k (by simpa using hk1) (by simpa using hk2) d e1 e2

/-- Claim C2, counterexample to the stated behaviour: on the spec's own
scenario — the 3 collinear points `(0,0), (1,1), (2,2)` — the
triangulation build does not fail with a `DegenerateInputError`.
spade's triangulation of an all-collinear point set is degenerate and
enumerates no faces (`triangles()` is empty, passed here as `tris = []`),
so `tri::heatmap` draws no triangle at all and returns `Ok(())`. -/
theorem tri_heatmap_collinear_ok :
    (triHeatmap gconst [F.fin 0, F.fin 1, F.fin 2] [F.fin 0, F.fin 1, F.fin 2]
        [F.fin 0, F.fin 0, F.fin 0] (F.fin 0, F.fin 2) []).isOk = true
    ∧ (triHeatmap gconst [F.fin 0, F.fin 1, F.fin 2] [F.fin 0, F.fin 1, F.fin 2]
        [F.fin 0, F.fin 0, F.fin 0] (F.fin 0, F.fin 2) []).toOption.map
          (fun log => log.polygons) = some [] := by
  constructor <;> rfl

/-- Claim C2 (amended): the triangulation build cannot fail at all.
spade's `insert` is infallible and the crate defines no
`DegenerateInputError` (nor any other error type): for every input —
including inputs with fewer than 3 distinct points or all points
collinear, for which spade's enumeration `tris` is empty —
`tri::heatmap` succeeds, emitting exactly one filled polygon per
enumerated triangle (hence zero polygons for degenerate input) instead of
surfacing an error. -/
theorem tri_heatmap_never_fails (g : ℚ → Color) (x y z : List F)
    (range : F × F) (tris : List (Nat × Nat × Nat)) :
    (triHeatmap g x y z range tris).isOk = true
    ∧ (triHeatmap g x y z range tris).toOption.map
        (fun log => log.polygons.length) = some tris.length := by
  refine ⟨rfl, ?_⟩
  show some (triMapPolygons g x y z tris).length = some tris.length
  simp [triMapPolygons, triMapUnit, triMapCells]

/-- Claim C4 (confirmed): the cell-value reducer of `TriPlot::map` —
the fold `0. + z[a]/3. + z[b]/3. + z[c]/3.` — equals the arithmetic mean
of the triangle's 3 vertex values whenever all three are finite (exact
rational arithmetic; IEEE rounding is outside the model), and yields NaN
whenever any of the three vertex values is NaN. -/
theorem cellValue_mean_and_nan (za zb zc : F) :
    (∀ a b c : ℚ, za = F.fin a → zb = F.fin b → zc = F.fin c →
        cellValueFold [za, zb, zc] [0, 1, 2] = F.fin ((a + b + c) / 3))
    ∧ ((za = F.nan ∨ zb = F.nan ∨ zc = F.nan) →
        cellValueFold [za, zb, zc] [0, 1, 2] = F.nan) := by
  constructor
  · rintro a b c rfl rfl rfl
    simp [cellValueFold]
    ring
  · rintro (rfl | rfl | rfl) <;> simp [cellValueFold]

/-- Witness for `cellValue_mean_and_nan`: vertex values `1, 2, 3` average
to `2`, and a NaN vertex value forces a NaN cell value. -/
theorem cellValue_mean_and_nan_witness :
    cellValueFold [F.fin 1, F.fin 2, F.fin 3] [0, 1, 2] = F.fin 2
      ∧ cellValueFold [F.nan, F.fin 0, F.fin 0] [0, 1, 2] = F.nan := by
  constructor
  · have h := (cellValue_mean_and_nan (F.fin 1) (F.fin 2) (F.fin 3)).1 1 2 3 rfl rfl rfl
    norm_num at h
    exact h
  · exact (cellValue_mean_and_nan F.nan (F.fin 0) (F.fin 0)).2 (Or.inl rfl)

/-- Claim C7 (confirmed): in wireframe mode (`TriPlot::mesh`), every
triangle yields exactly one polyline, the polyline is closed — it visits
the triangle's 3 vertex coordinates and returns to the first vertex
(`v.iter().cycle().take(4)`) — and every polyline carries the single
caller-supplied stroke color. -/
theorem triMesh_closed_polylines (x y : List F) (color : Color)
    (tris : List (Nat × Nat × Nat)) :
    (triMeshPolylines x y color tris).length = tris.length
    ∧ triMeshPolylines x y color tris
        = tris.map (fun t =>
            ⟨[pt x y t.1, pt x y t.2.1, pt x y t.2.2, pt x y t.1], color⟩) := by
  refine ⟨by simp [triMeshPolylines], ?_⟩
  unfold triMeshPolylines
  rw [List.map_eq_map_iff]
  intro t ht
  norm_num [cycleTake, triPoly, List.range_succ]

/-- Claim C3 (confirmed): in `TriPlot::map`, when the cell-value sequence
contains NaN entries, (a) the NaN entries are excluded from the min/max
range folds (`f64::min`/`f64::max` return the non-NaN operand), (b) every
NaN cell value stays NaN after normalization, and (c) the polygon of a
triangle whose normalized cell value is NaN is filled with the sentinel
pure black `(0, 0, 0)`. -/
theorem triMap_nan_handling (g : ℚ → Color) (x y z : List F)
    (tris : List (Nat × Nat × Nat))
    (hnan : F.nan ∈ triMapCells z tris) :
    (foldMax (triMapCells z tris)
        = foldMax ((triMapCells z tris).filter (fun v => !v.isNan))
      ∧ foldMin (triMapCells z tris)
        = foldMin ((triMapCells z tris).filter (fun v => !v.isNan)))
    ∧ ∀ k, k < tris.length →
        (triMapCells z tris).getD k (F.fin 0) = F.nan →
        (triMapUnit z tris).getD k (F.fin 0) = F.nan
        ∧ ((triMapPolygons g x y z tris).getD k ⟨[], (255, 255, 255)⟩).color
            = (0, 0, 0) := by
  refine ⟨⟨foldl_maxF_filter _ _, foldl_minF_filter _ _⟩, ?_⟩
  intro k hk hcell
  have hlen : (triMapCells z tris).length = tris.length := by
    simp [triMapCells]
  have hunit : (triMapUnit z tris).getD k (F.fin 0)
      = ((triMapCells z tris).getD k (F.fin 0) - foldMin (triMapCells z tris))
        / (foldMax (triMapCells z tris) - foldMin (triMapCells z tris)) := by
    unfold triMapUnit
    exact getD_map_of_lt _ (triMapCells z tris) k (by rw [hlen]; exact hk) _ _
  have hu : (triMapUnit z tris).getD k (F.fin 0) = F.nan := by
    rw [hunit, hcell]; simp
  refine ⟨hu, ?_⟩
  have hvlen : k < (tris.map (triPoly x y)).length := by simpa using hk
  have hulen : k < (triMapUnit z tris).length := by
    simpa [triMapUnit, triMapCells] using hk
  unfold triMapPolygons
  rw [getD_zipWith_of_lt _ (tris.map (triPoly x y)) (triMapUnit z tris) k hvlen hulen
    _ [] (F.fin 0)]
  rw [hu]
  simp [triFill]

/-- Witness for `triMap_nan_handling` on the spec's scenario: one NaN
vertex value in the single triangle `(0, 1, 2)` gives a NaN cell value,
which is excluded from the max fold, stays NaN after normalization, and
is rendered in sentinel black. -/
theorem triMap_nan_handling_witness :
    (foldMax (triMapCells [F.nan, F.fin 0, F.fin 0] [(0, 1, 2)])
        = foldMax ((triMapCells [F.nan, F.fin 0, F.fin 0] [(0, 1, 2)]).filter
            (fun v => !v.isNan)))
    ∧ (triMapUnit [F.nan, F.fin 0, F.fin 0] [(0, 1, 2)]).getD 0 (F.fin 0) = F.nan
    ∧ ((triMapPolygons gconst [F.fin 0, F.fin 1, F.fin 0]
          [F.fin 0, F.fin 0, F.fin 1] [F.nan, F.fin 0, F.fin 0]
          [(0, 1, 2)]).getD 0 ⟨[], (255, 255, 255)⟩).color = (0, 0, 0) := by
  have hmem : F.nan ∈ triMapCells [F.nan, F.fin 0, F.fin 0] [(0, 1, 2)] := by
    norm_num [triMapCells, cellValueFold]
  have hcell : (triMapCells [F.nan, F.fin 0, F.fin 0] [(0, 1, 2)]).getD 0 (F.fin 0)
      = F.nan := by
    norm_num [triMapCells, cellValueFold]
  have h := triMap_nan_handling gconst [F.fin 0, F.fin 1, F.fin 0]
    [F.fin 0, F.fin 0, F.fin 1] [F.nan, F.fin 0, F.fin 0] [(0, 1, 2)] hmem
  exact ⟨h.1.1, (h.2 0 (by norm_num) hcell).1, (h.2 0 (by norm_num) hcell).2⟩

/-- Claim C5, counterexample to the stated behaviour: for range `(0, 1)`
and `n = 2` swatches, `dx = (1-0)/(2-1) = 1` and the two rectangles span
`[0, 1]` and `[1, 2]` on the value axis — their union is `[0, 2]`, which
overshoots the range maximum `1` by one swatch width instead of spanning
exactly `[min, max]`. -/
theorem colorbar_span_counterexample :
    (colorbarRects gconst (F.fin 0) (F.fin 1) 2).map Rect.x1
        = [F.fin 1, F.fin 2]
    ∧ F.fin 2 ≠ F.fin 1 := by
  constructor
  · norm_num [colorbarRects, List.range_succ]
  · simp

/-- Claim C5 (amended): for every range `(min, max)` with `min < max` and
swatch count `n ≥ 2`, the colorbar consists of exactly `n` adjacent
rectangles of width `dx = (max-min)/(n-1)`, rectangle `k` spanning
`[min + k*dx, min + (k+1)*dx]` on the value axis and `[0, 1]` on the
other, filled by evaluating the gradient at the rational position
`k/(n-1)`; the rectangles' left edges cover exactly `[min, max]`, but the
filled strip extends to `max + dx`, overshooting the range maximum by one
swatch width. -/
theorem colorbar_rects_spec (g : ℚ → Color) (mn mx : ℚ) (n : Nat)
    (hlt : mn < mx) (hn : 2 ≤ n) :
    (colorbarRects g (F.fin mn) (F.fin mx) n).length = n
    ∧ colorbarRects g (F.fin mn) (F.fin mx) n
        = (List.range n).map (fun (k : Nat) =>
            ⟨F.fin (mn + k * ((mx - mn) / ((n : ℚ) - 1))), F.fin 0,
             F.fin (mn + (k + 1) * ((mx - mn) / ((n : ℚ) - 1))), F.fin 1,
             g ((k : ℚ) / ((n : ℚ) - 1))⟩)
    ∧ mn + (n : ℚ) * ((mx - mn) / ((n : ℚ) - 1))
        = mx + (mx - mn) / ((n : ℚ) - 1) := by
  have h1n : 1 ≤ n := le_trans (by norm_num) hn
  have hcast : (((n - 1 : Nat)) : ℚ) = (n : ℚ) - 1 := by
    push_cast [Nat.cast_sub h1n]
    ring
  have hne : ((n : ℚ) - 1) ≠ 0 := by
    have : (2 : ℚ) ≤ (n : ℚ) := by exact_mod_cast hn
    intro h
    nlinarith
  refine ⟨by simp [colorbarRects], ?_, by field_simp; ring⟩
  unfold colorbarRects
  rw [List.map_eq_map_iff]
  intro k hk
  have hk' : k < n := List.mem_range.mp hk
  have hkn : (k : ℚ) ≤ (n : ℚ) - 1 := by
    have : (k : ℚ) + 1 ≤ (n : ℚ) := by exact_mod_cast hk'
    linarith
  have hk0 : (0 : ℚ) ≤ (k : ℚ) / ((n : ℚ) - 1) := by
    apply div_nonneg (by positivity)
    have : (2 : ℚ) ≤ (n : ℚ) := by exact_mod_cast hn
    linarith
  have hk1 : (k : ℚ) / ((n : ℚ) - 1) ≤ 1 := by
    rw [div_le_one (by
      have : (2 : ℚ) ≤ (n : ℚ) := by exact_mod_cast hn
      linarith)]
    exact hkn
  simp only [hcast, sub_def, add_def, mul_def, div_def, negF_fin, addF_fin_fin,
    divF_fin_fin, if_neg hne, mulF_fin_fin, evalRationalF, evalContinuousF, clampF]
  rw [Rect.mk.injEq]
  refine ⟨by rw [F.fin.injEq]; ring, rfl, by rw [F.fin.injEq]; ring, rfl, ?_⟩
  congr 1
  rw [min_eq_right hk1, max_eq_right hk0]

/-- Witness for `colorbar_rects_spec` at range `(0, 1)` with `n = 3`
swatches: `dx = 1/2`, rectangles `[0, 1/2]`, `[1/2, 1]`, `[1, 3/2]`. -/
theorem colorbar_rects_spec_witness :
    (colorbarRects gconst (F.fin 0) (F.fin 1) 3).length = 3
    ∧ colorbarRects gconst (F.fin 0) (F.fin 1) 3
        = [⟨F.fin 0, F.fin 0, F.fin (1 / 2), F.fin 1, (128, 128, 128)⟩,
           ⟨F.fin (1 / 2), F.fin 0, F.fin 1, F.fin 1, (128, 128, 128)⟩,
           ⟨F.fin 1, F.fin 0, F.fin (3 / 2), F.fin 1, (128, 128, 128)⟩] := by
  have h := colorbar_rects_spec gconst 0 1 3 (by norm_num) (by norm_num)
  refine ⟨h.1, h.2.1.trans ?_⟩
  norm_num [List.range_succ, gconst]

/-! Embedding of the conversion entry points (`src/line.rs`,
`src/lib.rs`, `src/heatmap.rs`) and their panic/`Result` behaviour. -/

/-- Outcome of running a Rust function that may panic: either a panic
with its message, or the returned value. -/
inductive RunResult (α : Type) where
  | panic (msg : String)
  | ok (a : α)
deriving DecidableEq

/-- Modelled from the spec: `Utils::xy_max`.  The `Utils` trait is code
of this repository that is not present under `src/` (only its callers in
`line.rs`, `scatter.rs` and `combo.rs` are).  Per §4.5 of the spec the
auto axis range is the bounding box of all points — a single min/max
reduction over all `(x, y)` pairs; the fold mirrors the inline
equivalent in `src/scatter.rs` lines 70–78. -/
def xyMax (xy : List (F × List F)) : F × F :=
  xy.foldl (fun fxy p =>
    (maxF fxy.1 p.1, maxF fxy.2 (p.2.foldl maxF F.ninf))) (F.ninf, F.ninf)

/-- Modelled from the spec: `Utils::xy_min`, the mirror of `xy_max`
(cf. `src/scatter.rs` lines 79–87). -/
def xyMin (xy : List (F × List F)) : F × F :=
  xy.foldl (fun fxy p =>
    (minF fxy.1 p.1, minF fxy.2 (p.2.foldl minF F.inf))) (F.inf, F.inf)

/-- The `colorous::TABLEAU10` palette, cycled over series. -/
def tableau10 : Nat → Color := fun k =>
  [(31, 119, 180), (255, 127, 14), (44, 160, 44), (214, 39, 40),
   (148, 103, 189), (140, 86, 75), (227, 119, 194), (127, 127, 127),
   (188, 189, 34), (23, 190, 207)].getD (k % 10) (0, 0, 0)

/-- `data.iter().skip(k).step_by(step)`. -/
def skipStep {α : Type} (l : List α) (k step : Nat) : List α :=
  ((l.drop k).enum.filter (fun p => p.1 % step = 0)).map (fun p => p.2)

/-- The `inner` closure of `line::Plot::from((iter, config))`
(src/line.rs lines 83–137): collect `xy`, compute the bounding box via
`Utils::xy_max`/`xy_min`, `assert!` that both ranges are strictly
increasing (an `assert!` failure is a panic), read `n_y` from the first
item (`xy[0]`, a panic on empty input — unreachable, as the empty
bounding box fails the assert first), then build one `LineSeries` per
column over the flattened data, cycling `TABLEAU10` colors.  The
aggregate outcome of the fallible backend calls (the `?` sites) is the
`drawOutcome` parameter. -/
def linePlotInner (xy : List (F × List F)) (drawOutcome : Except String Unit) :
    RunResult (Except String (List Polyline)) :=
  let xmaxy := xyMax xy
  let xminy := xyMin xy
  if gtB xmaxy.1 xminy.1 then
    if gtB xmaxy.2 xminy.2 then
      match xy with
      | [] => .panic "index out of bounds"
      | h :: _ =>
        let ny := h.2.length
        let data := xy.flatMap (fun p => p.2.map (fun yv => (p.1, yv)))
        let series := (List.range ny).map (fun (k : Nat) =>
          (⟨skipStep data k ny, tableau10 k⟩ : Polyline))
        .ok (match drawOutcome with
          | .error e => .error e
          | .ok _ => .ok series)
    else .panic "Incorrect y axis range"
  else .panic "Incorrect x axis range"

/-- `line::Plot::from` (src/line.rs lines 139–143): runs `inner`; an
`Err` is only printed (`println!("Complot failed in Plot: {}", e)`) and
the unit struct `Plot {}` is returned regardless, while a panic
propagates.  The returned pair is the constructed value together with
the printed lines. -/
def linePlotFrom (xy : List (F × List F)) (drawOutcome : Except String Unit) :
    RunResult (Unit × List String) :=
  match linePlotInner xy drawOutcome with
  | .panic m => .panic m
  | .ok (.error e) => .ok ((), ["Complot failed in Plot: " ++ e])
  | .ok (.ok _) => .ok ((), [])

/-- One grid-cell rectangle of the square heatmap (integer chart
coordinates, `Rectangle::new([(osf*i, osf*j), (osf*(i+1), osf*(j+1))],
color)`). -/
structure GridRect where
  p0 : Int × Int
  p1 : Int × Int
  color : Color
deriving DecidableEq

/-- Primitives accumulated by one heatmap render. -/
structure HeatLog where
  grid : List GridRect
  colorbar : List Rect
deriving DecidableEq

/-- `lib.rs::heatmap` (src/lib.rs lines 295–380), which is also the body
of the `inner` closure of `heatmap.rs`'s `Heatmap::from`
(src/heatmap.rs lines 30–117, identical up to default filename and
margins): `assert_eq!(rows, cols, "rectangular heatmap unimplemented")`
panics on a non-square shape; otherwise the color range is the
`cmap_minmax` override or the min/max folds of the data, cell `k` becomes
the rectangle at `(osf*(k%res), osf*(k/res))` colored by the continuous
gradient of the normalized value, and the colorbar strip of
`size = res*osf` swatches follows.  Backend fallibility is the
`drawOutcome` parameter.  (The `size - 1` usize arithmetic of the source
underflows for `size = 0`; that case is outside the model, and theorems
about successful runs assume `0 < rows`.) -/
def heatmapRun (g : ℚ → Color) (map : List F) (rows cols : Nat)
    (cmapMinmax : Option (F × F)) (osf : Nat)
    (drawOutcome : Except String Unit) :
    RunResult (Except String HeatLog) :=
  if rows ≠ cols then .panic "rectangular heatmap unimplemented"
  else
    let res := rows
    let size := res * osf
    let mm := match cmapMinmax with
      | some v => v
      | none => (foldMin map, foldMax map)
    let grid := map.enum.map (fun (kv : Nat × F) =>
      let j : Int := (kv.1 / res : Nat)
      let i : Int := (kv.1 % res : Nat)
      (⟨((osf : Int) * i, (osf : Int) * j),
        ((osf : Int) * (i + 1), (osf : Int) * (j + 1)),
        evalContinuousF g ((kv.2 - mm.1) / (mm.2 - mm.1))⟩ : GridRect))
    let bar := colorbarRects g mm.1 mm.2 size
    .ok (match drawOutcome with
      | .error e => .error e
      | .ok _ => .ok ⟨grid, bar⟩)

/-- `lib.rs`'s `Heatmap::from` (src/lib.rs lines 203–212): runs
`heatmap(data, None)` (default config: no `cmap_minmax`, `osf = 1`); if
the result `is_err()` it only prints `"Complot::Heatmap has failed!"`
and the `Heatmap` value is constructed regardless, while the assert
panic propagates. -/
def heatmapFromLib (g : ℚ → Color) (map : List F) (rows cols : Nat)
    (drawOutcome : Except String Unit) : RunResult (Unit × List String) :=
  match heatmapRun g map rows cols none 1 drawOutcome with
  | .panic m => .panic m
  | .ok (.error _) => .ok ((), ["Complot::Heatmap has failed!"])
  | .ok (.ok _) => .ok ((), [])

/-- `heatmap.rs`'s `Heatmap::from` (src/heatmap.rs lines 118–121): if
`inner` errs, only `eprintln!("Complot failed in Heatmap: {}", e)` runs
and `Heatmap {}` is returned regardless, while the assert panic
propagates. -/
def heatmapFromHM (g : ℚ → Color) (map : List F) (rows cols : Nat)
    (cmapMinmax : Option (F × F)) (osf : Nat)
    (drawOutcome : Except String Unit) : RunResult (Unit × List String) :=
  match heatmapRun g map rows cols cmapMinmax osf drawOutcome with
  | .panic m => .panic m
  | .ok (.error e) => .ok ((), ["Complot failed in Heatmap: " ++ e])
  | .ok (.ok _) => .ok ((), [])

/-- Claim C6, counterexample to the stated behaviour: for the repeated
point `(1.0, 2.0)` the auto bounding box has zero width, and
`line::Plot::from` fails through the `assert!(x_max > x_min)` panic —
not through a typed `DegenerateAxisRangeError` value (no such type
exists in the crate). -/
theorem line_plot_degenerate_panics :
    linePlotFrom [(F.fin 1, [F.fin 2]), (F.fin 1, [F.fin 2])] (.ok ())
      = .panic "Incorrect x axis range" := by
  norm_num [linePlotFrom, linePlotInner, xyMax, xyMin]

/-- Claim C6 (amended): a degenerate auto-computed bounding box is not
surfaced as a typed error value — whenever the x range fails the strict
`x_max > x_min` comparison (zero-width box, or NaN bounds, or empty
input), `line::Plot::from` panics via `assert!` with
"Incorrect x axis range" before any drawing; the crate defines no
`DegenerateAxisRangeError` (nor any other error type). -/
theorem line_plot_degenerate_panic_range (xy : List (F × List F))
    (outcome : Except String Unit)
    (hx : gtB (xyMax xy).1 (xyMin xy).1 = false) :
    linePlotFrom xy outcome = .panic "Incorrect x axis range" := by
  unfold linePlotFrom linePlotInner
  simp [hx]

/-- Witness for `line_plot_degenerate_panic_range` at the zero-width
input `x = 5, 5`. -/
theorem line_plot_degenerate_panic_range_witness :
    linePlotFrom [(F.fin 5, [F.fin 0]), (F.fin 5, [F.fin 1])] (.ok ())
      = .panic "Incorrect x axis range" :=
  line_plot_degenerate_panic_range _ _ (by norm_num [xyMax, xyMin])

/-- Claim C9 (confirmed): for every declared shape with `rows ≠ cols`,
`lib.rs::heatmap` and both `Heatmap` conversions panic through
`assert_eq!(rows, cols, "rectangular heatmap unimplemented")` instead of
rendering or returning a typed error. -/
theorem heatmap_nonsquare_panics (g : ℚ → Color) (map : List F)
    (rows cols : Nat) (mm : Option (F × F)) (osf : Nat)
    (outcome : Except String Unit) (h : rows ≠ cols) :
    heatmapRun g map rows cols mm osf outcome
        = .panic "rectangular heatmap unimplemented"
    ∧ heatmapFromLib g map rows cols outcome
        = .panic "rectangular heatmap unimplemented"
    ∧ heatmapFromHM g map rows cols mm osf outcome
        = .panic "rectangular heatmap unimplemented" := by
  refine ⟨?_, ?_, ?_⟩ <;> simp [heatmapRun, heatmapFromLib, heatmapFromHM, h]

/-- Witness for `heatmap_nonsquare_panics` at shape `(2, 3)`. -/
theorem heatmap_nonsquare_panics_witness :
    heatmapRun gconst [] 2 3 none 1 (.ok ())
        = .panic "rectangular heatmap unimplemented"
    ∧ heatmapFromLib gconst [] 2 3 (.ok ())
        = .panic "rectangular heatmap unimplemented"
    ∧ heatmapFromHM gconst [] 2 3 none 1 (.ok ())
        = .panic "rectangular heatmap unimplemented" :=
  heatmap_nonsquare_panics gconst [] 2 3 none 1 (.ok ()) (by norm_num)

/-- Claim C10, counterexample to the stated behaviour: at shape `(1, 2)`
the `Heatmap` conversion of `lib.rs` does not return a constructed value
at all — the `assert_eq!` inside the called `heatmap` panics — so the
conversions do not return a value for *every* input. -/
theorem heatmap_from_nonsquare_no_value :
    heatmapFromLib gconst [F.fin 0, F.fin 1] 1 2 (.ok ())
      = .panic "rectangular heatmap unimplemented" := by
  norm_num [heatmapFromLib, heatmapRun]

/-- Claim C10 (amended): on every input on which the renderers' own
assertions hold — a square nonzero heatmap shape, and a strictly
increasing auto bounding box for line plots — the `Heatmap` and line
`Plot` conversions return a constructed value, and an internal rendering
error (`Err` from the backend) is only printed
(`"Complot::Heatmap has failed!"`, `"Complot failed in Heatmap: {e}"`,
`"Complot failed in Plot: {e}"`) and never propagated to the caller
through the return value; inputs violating the assertions panic instead
(see the counterexample). -/
theorem conversions_swallow_errors (g : ℚ → Color) (map : List F)
    (rows cols : Nat) (mm : Option (F × F)) (osf : Nat)
    (xy : List (F × List F)) (e : String)
    (hsq : rows = cols) (hres : 0 < rows)
    (hx : gtB (xyMax xy).1 (xyMin xy).1 = true)
    (hy : gtB (xyMax xy).2 (xyMin xy).2 = true) :
    heatmapFromLib g map rows cols (.ok ()) = .ok ((), [])
    ∧ heatmapFromLib g map rows cols (.error e)
        = .ok ((), ["Complot::Heatmap has failed!"])
    ∧ heatmapFromHM g map rows cols mm osf (.ok ()) = .ok ((), [])
    ∧ heatmapFromHM g map rows cols mm osf (.error e)
        = .ok ((), ["Complot failed in Heatmap: " ++ e])
    ∧ linePlotFrom xy (.ok ()) = .ok ((), [])
    ∧ linePlotFrom xy (.error e)
        = .ok ((), ["Complot failed in Plot: " ++ e]) := by
  have hline : ∀ outcome : Except String Unit,
      linePlotFrom xy outcome = (match outcome with
        | .error e2 => .ok ((), ["Complot failed in Plot: " ++ e2])
        | .ok _ => .ok ((), [])) := by
    intro outcome
    cases xy with
    | nil => norm_num [xyMax, xyMin, gtB] at hx
    | cons h t =>
        unfold linePlotFrom linePlotInner
        simp only [hx, hy, if_true]
        cases outcome <;> rfl
  refine ⟨?_, ?_, ?_, ?_, hline (.ok ()), hline (.error e)⟩ <;>
    simp [heatmapFromLib, heatmapFromHM, heatmapRun, hsq]

/-- Witness for `conversions_swallow_errors`: a 1×1 heatmap and a
two-point line plot, with a failing backend (`"boom"`); the conversions
still return the constructed value, recording only a printed message. -/
theorem conversions_swallow_errors_witness :
    heatmapFromLib gconst [F.fin 0] 1 1 (.error "boom")
        = .ok ((), ["Complot::Heatmap has failed!"])
    ∧ heatmapFromHM gconst [F.fin 0] 1 1 none 1 (.error "boom")
        = .ok ((), ["Complot failed in Heatmap: " ++ "boom"])
    ∧ linePlotFrom [(F.fin 0, [F.fin 1]), (F.fin 1, [F.fin 2])] (.error "boom")
        = .ok ((), ["Complot failed in Plot: " ++ "boom"]) := by
  have h := conversions_swallow_errors gconst [F.fin 0] 1 1 none 1
    [(F.fin 0, [F.fin 1]), (F.fin 1, [F.fin 2])] "boom" rfl (by norm_num)
    (by norm_num [xyMax, xyMin]) (by norm_num [xyMax, xyMin])
  exact ⟨h.2.1, h.2.2.2.1, h.2.2.2.2.2⟩
